import Mathlib

/-!
Shallow embedding of the MCP server template's request-handling core
(auth gate, protocol dispatcher, tool registry, argument validator),
translated from the Rust sources `src/lib.rs`, `src/tools/mod.rs`,
`src/tools/get_time.rs`, `src/auth/middleware.rs`, `src/auth/error.rs`
and `src/auth/types.rs`, together with theorems settling the frozen
claims about that core.

Modelling conventions:
- `serde_json::Value` becomes the inductive `Json`; objects are ordered
  association lists (serde's map is ordered and key-unique; the claims
  never depend on duplicate keys).
- Numbers stored as i64/u64 are `Json.int`; other (f64) numbers are
  `Json.num` over `ℚ` (the claims never exercise non-integral numbers).
- `anyhow::Result<T>` becomes `Except String T`, carrying the formatted
  error message.
- A `panic!` at startup becomes `Except.error` of the panic message.
- Rust byte-level string operations (`contains`, `starts_with`,
  `strip_prefix`) are modelled at the character level; for the ASCII
  needles used throughout this code base the two coincide.
-/

namespace McpServer

/-- JSON values (serde_json::Value). Objects and their key iteration are
modelled as ordered association lists. -/
inductive Json where
  | null
  | bool (b : Bool)
  | int (n : Int)
  | num (q : ℚ)
  | str (s : String)
  | arr (elems : List Json)
  | obj (kvs : List (String × Json))
deriving Repr

/-- First-match association-list lookup (models map lookup on serde maps
and on HashMap, whose contents are key-unique in this program). -/
def alookup {α : Type} (k : String) : List (String × α) → Option α
  | [] => none
  | (k', v) :: rest => if k' = k then some v else alookup k rest

/-- Value::get on an object (None on non-objects). -/
def Json.get? (j : Json) (key : String) : Option Json :=
  match j with
  | .obj kvs => alookup key kvs
  | _ => none

/-- Value::as_object. -/
def Json.asObj? : Json → Option (List (String × Json))
  | .obj kvs => some kvs
  | _ => none

/-- Value::as_array. -/
def Json.asArr? : Json → Option (List Json)
  | .arr elems => some elems
  | _ => none

/-- Value::as_str. -/
def Json.asStr? : Json → Option String
  | .str s => some s
  | _ => none

/-- Value::as_bool. -/
def Json.asBool? : Json → Option Bool
  | .bool b => some b
  | _ => none

/-- Value::as_u64: only integer-stored numbers that are nonnegative. -/
def Json.asU64? : Json → Option Nat
  | .int n => if 0 ≤ n then some n.toNat else none
  | _ => none

/-- Value::as_f64: any number converts (rationals stand in for f64). -/
def Json.asF64? : Json → Option ℚ
  | .int n => some (n : ℚ)
  | .num q => some q
  | _ => none

/-- The keys of a JSON object ([] on non-objects). -/
def Json.objKeys : Json → List String
  | .obj kvs => kvs.map Prod.fst
  | _ => []

/-- str::trim_start_matches with a char pattern: repeatedly removes the
character from the front. -/
def trimStartMatches (c : Char) (s : String) : String :=
  ⟨s.data.dropWhile (fun d => d = c)⟩

/-- str::trim_end_matches with a char pattern: repeatedly removes the
character from the back. -/
def trimEndMatches (c : Char) (s : String) : String :=
  ⟨(s.data.reverse.dropWhile (fun d => d = c)).reverse⟩

/-- str::contains with a string pattern: substring containment. -/
def strContains (s pat : String) : Bool :=
  s.data.tails.any (fun t => pat.data.isPrefixOf t)

/-- str::starts_with with a string pattern, at character level. -/
def strIsPrefix (p s : String) : Bool :=
  p.data.isPrefixOf s.data

/-- str::starts_with with a char pattern. -/
def strStartsChar (s : String) (c : Char) : Bool :=
  match s.data with
  | [] => false
  | d :: _ => d = c

/-- str::ends_with with a char pattern. -/
def strEndsChar (s : String) (c : Char) : Bool :=
  match s.data.getLast? with
  | some d => d = c
  | none => false

/-- Drop the first n characters of a string. -/
def strDropChars (n : Nat) (s : String) : String :=
  ⟨s.data.drop n⟩

/-- The `type` name serde_json assigns a value in `validate_value`
(src/tools/mod.rs): integer-stored numbers are "integer", other numbers
are "number". -/
def typeName : Json → String
  | .str _ => "string"
  | .int _ => "integer"
  | .num _ => "number"
  | .bool _ => "boolean"
  | .arr _ => "array"
  | .obj _ => "object"
  | .null => "null"

/-- Format a numeric bound for an error message (Display of f64; the
claims never inspect these texts, only their classification keywords). -/
def fmtNum (q : ℚ) : String :=
  if q.den = 1 then toString q.num else toString q

/-- The maxItems check on arrays, last stage of validate_value
(src/tools/mod.rs). -/
def validate_value_items (name : String) (value : Json) (schema : Json) :
    Except String Unit :=
  match value.asArr? with
  | some elems =>
    match (schema.get? "maxItems").bind Json.asU64? with
    | some max_items =>
      if elems.length > max_items then
        .error ("Parameter '" ++ name ++ "' exceeds maximum array length of " ++
          toString max_items)
      else .ok ()
    | none => .ok ()
  | none => .ok ()

/-- The maximum check of validate_value. -/
def validate_value_max (name : String) (value : Json) (schema : Json) (n : ℚ) :
    Except String Unit :=
  match (schema.get? "maximum").bind Json.asF64? with
  | some max =>
    if n > max then
      .error ("Parameter '" ++ name ++ "' must be at most " ++ fmtNum max)
    else validate_value_items name value schema
  | none => validate_value_items name value schema

/-- The minimum and maximum checks of validate_value (as_f64 comparison),
then maxItems. -/
def validate_value_numeric (name : String) (value : Json) (schema : Json) :
    Except String Unit :=
  match value.asF64? with
  | some n =>
    match (schema.get? "minimum").bind Json.asF64? with
    | some min =>
      if n < min then
        .error ("Parameter '" ++ name ++ "' must be at least " ++ fmtNum min)
      else validate_value_max name value schema n
    | none => validate_value_max name value schema n
  | none => validate_value_items name value schema

/-- The pattern check of validate_value: only patterns that start with a
caret and end with a star are checked, as a plain string-prefix test on
the text left after trimming every leading caret and every trailing star
(trim_start_matches / trim_end_matches remove repeated matches). -/
def validate_value_pattern (name : String) (value : Json) (schema : Json) (s : String) :
    Except String Unit :=
  match (schema.get? "pattern").bind Json.asStr? with
  | some pat =>
    if strStartsChar pat '^' ∧ strEndsChar pat '*' then
      if strIsPrefix (trimEndMatches '*' (trimStartMatches '^' pat)) s then
        validate_value_numeric name value schema
      else
        .error ("Parameter '" ++ name ++ "' does not match required pattern")
    else validate_value_numeric name value schema
  | none => validate_value_numeric name value schema

/-- The maxLength check of validate_value (byte length, like str::len). -/
def validate_value_maxlen (name : String) (value : Json) (schema : Json) (s : String) :
    Except String Unit :=
  match (schema.get? "maxLength").bind Json.asU64? with
  | some max_len =>
    if s.utf8ByteSize > max_len then
      .error ("Parameter '" ++ name ++ "' exceeds maximum length of " ++ toString max_len)
    else validate_value_pattern name value schema s
  | none => validate_value_pattern name value schema s

/-- The string-keyword checks of validate_value (minLength, maxLength,
pattern), then the numeric and array checks. -/
def validate_value_str (name : String) (value : Json) (schema : Json) :
    Except String Unit :=
  match value.asStr? with
  | some s =>
    match (schema.get? "minLength").bind Json.asU64? with
    | some min_len =>
      if s.utf8ByteSize < min_len then
        .error ("Parameter '" ++ name ++ "' must be at least " ++ toString min_len ++
          " characters long")
      else validate_value_maxlen name value schema s
    | none => validate_value_maxlen name value schema s
  | none => validate_value_numeric name value schema

/-- validate_value (src/tools/mod.rs): validate a single value against
its property sub-schema: type check first, then string length and
pattern checks, then numeric bounds, then array length, short-circuiting
on the first failure. -/
def validate_value (name : String) (value : Json) (schema : Json) : Except String Unit :=
  match (schema.get? "type").bind Json.asStr? with
  | some expected_type =>
    let actual_type := typeName value
    if expected_type = actual_type ∨ (expected_type = "number" ∧ actual_type = "integer") then
      validate_value_str name value schema
    else
      .error ("Parameter '" ++ name ++ "' must be of type '" ++ expected_type ++
        "', got '" ++ actual_type ++ "'")
  | none => validate_value_str name value schema

/-- The `required` list of a schema: string entries of the `required`
array, in declared order (non-array or missing gives []). -/
def getRequired (schema : Json) : List String :=
  match (schema.get? "required").bind Json.asArr? with
  | some entries => entries.filterMap Json.asStr?
  | none => []

/-- The `additionalProperties` flag (default true). -/
def getAdditionalProperties (schema : Json) : Bool :=
  match (schema.get? "additionalProperties").bind Json.asBool? with
  | some b => b
  | none => true

/-- The `properties` object of a schema, when present. -/
def getProperties (schema : Json) : Option (List (String × Json)) :=
  (schema.get? "properties").bind Json.asObj?

/-- The additionalProperties=false scan: the first argument key absent
from `properties` fails. -/
def checkUnexpected (props : List (String × Json)) :
    List (String × Json) → Except String Unit
  | [] => .ok ()
  | (key, _) :: rest =>
    if (alookup key props).isSome then checkUnexpected props rest
    else .error ("Unexpected parameter: '" ++ key ++ "'")

/-- The required-presence scan, in the schema's declared order: the
first required name absent from the arguments fails. -/
def checkRequired (args_obj : List (String × Json)) :
    List String → Except String Unit
  | [] => .ok ()
  | req_field :: rest =>
    if (alookup req_field args_obj).isSome then checkRequired args_obj rest
    else .error ("Missing required parameter: '" ++ req_field ++ "'")

/-- The per-property scan: each argument value that has a sub-schema in
`properties` is validated with validate_value. -/
def checkProps (props : List (String × Json)) :
    List (String × Json) → Except String Unit
  | [] => .ok ()
  | (prop_name, value) :: rest =>
    match alookup prop_name props with
    | some prop_schema =>
      match validate_value prop_name value prop_schema with
      | .ok _ => checkProps props rest
      | .error e => .error e
    | none => checkProps props rest

/-- validate_tool_args (src/tools/mod.rs): validate a JSON argument
object against a tool's schema, fail-fast, in the source's order:
absent-argument handling, object check, additionalProperties scan,
required scan, per-property validation. -/
def validate_tool_args (schema : Json) (args : Option Json) : Except String Unit :=
  let properties := getProperties schema
  let required := getRequired schema
  let has_required := !required.isEmpty
  let additional_properties := getAdditionalProperties schema
  if has_required && args.isNone then
    .error ("Missing required arguments: " ++ String.intercalate ", " required)
  else if args.isNone then
    .ok ()
  else
    match args.bind Json.asObj? with
    | none => .error "Arguments must be an object"
    | some args_obj =>
      match
        (if !additional_properties then
          match properties with
          | some props => checkUnexpected props args_obj
          | none => .ok ()
        else .ok ()) with
      | .error e => .error e
      | .ok _ =>
        match checkRequired args_obj required with
        | .error e => .error e
        | .ok _ =>
          match properties with
          | some props => checkProps props args_obj
          | none => .ok ()

/-- Runtime user credentials (src/auth/types.rs). external_keys is an
association list standing in for the HashMap. -/
structure UserCredentials where
  username : String
  api_key : String
  external_keys : List (String × String)

/-- Wrapper for the authenticated user context injected into request
extensions (src/auth/types.rs). -/
structure AuthenticatedUser where
  creds : UserCredentials

/-- Credentials store indexed by API key (src/auth/types.rs); keys are
unique, so a first-match association list models the HashMap. -/
abbrev CredentialsStore := List (String × UserCredentials)

/-- validate_api_key (src/auth/types.rs): store lookup. -/
def validate_api_key (api_key : String) (store : CredentialsStore) :
    Option UserCredentials :=
  alookup api_key store

/-- Authentication failures (src/auth/error.rs). -/
inductive AuthError where
  | MissingToken
  | InvalidFormat
  | InvalidToken

/-- The fixed message chosen for each failure kind in
AuthError::into_response (src/auth/error.rs). -/
def AuthError.message : AuthError → String
  | .MissingToken => "Missing Authorization header"
  | .InvalidFormat => "Invalid Authorization header format. Expected: Bearer <token>"
  | .InvalidToken => "Invalid or expired API key"

/-- str::strip_prefix with a string pattern: the tail after the pattern
when the pattern leads, None otherwise. -/
def stripPrefixOpt (p s : String) : Option String :=
  if strIsPrefix p s then some (strDropChars p.data.length s) else none

/-- authenticate (src/auth/middleware.rs): extract and validate the
Bearer token. The authorization header is modelled as an optional
string value. -/
def authenticate (authHeader : Option String) (credentials : CredentialsStore) :
    Except AuthError UserCredentials :=
  match authHeader with
  | none => .error AuthError.MissingToken
  | some auth_header =>
    match stripPrefixOpt "Bearer " auth_header with
    | none => .error AuthError.InvalidFormat
    | some token =>
      match validate_api_key token credentials with
      | some creds => .ok creds
      | none => .error AuthError.InvalidToken

/-- Error details for JSON-RPC responses (src/lib.rs). -/
structure ErrorDetails where
  code : Int
  message : String
  data : Option Json

/-- Serialization of ErrorDetails: the data field carries
skip_serializing_if and is omitted when None. -/
def errorDetailsJson (e : ErrorDetails) : Json :=
  .obj ([("code", .int e.code), ("message", .str e.message)] ++
    (match e.data with
     | some d => [("data", d)]
     | none => []))

/-- MCP response structure (src/lib.rs). -/
structure McpResponse where
  result : Option Json
  error : Option ErrorDetails
  jsonrpc : String

/-- McpResponse::success. -/
def McpResponse.success (result : Json) : McpResponse :=
  { result := some result, error := none, jsonrpc := "2.0" }

/-- McpResponse::error (named mkError because `error` is the field
projection). -/
def McpResponse.mkError (code : Int) (message : String) (data : Option Json) :
    McpResponse :=
  { result := none
    error := some { code := code, message := message, data := data }
    jsonrpc := "2.0" }

/-- Serde serialization of McpResponse: fields in declaration order,
result and error both under skip_serializing_if (omitted when None). -/
def serializeMcpResponse (r : McpResponse) : Json :=
  .obj ((match r.result with
         | some v => [("result", v)]
         | none => []) ++
        (match r.error with
         | some e => [("error", errorDetailsJson e)]
         | none => []) ++
        [("jsonrpc", .str r.jsonrpc)])

/-- AuthError::into_response builds the 401 body (src/auth/error.rs):
a full envelope with jsonrpc and the error details. -/
def authErrorBody (e : AuthError) : Json :=
  .obj [("jsonrpc", .str "2.0"),
        ("error", errorDetailsJson { code := -32001, message := e.message, data := none })]

/-- An HTTP response: status code and JSON body. -/
structure HttpResponse where
  status : Nat
  body : Json

/-- AuthError::into_response (src/auth/error.rs): HTTP 401 with the
envelope body. -/
def AuthError.into_response (e : AuthError) : HttpResponse :=
  { status := 401, body := authErrorBody e }

/-- AuthMiddleware::call (src/auth/middleware.rs): authenticate; on
success inject the user and forward to the inner service, on failure
short-circuit with the 401 response. -/
def authMiddlewareCall (credentials : CredentialsStore) (authHeader : Option String)
    (inner : AuthenticatedUser → HttpResponse) : HttpResponse :=
  match authenticate authHeader credentials with
  | .ok user_credentials => inner { creds := user_credentials }
  | .error auth_error => auth_error.into_response

/-- Tool definition for discovery (src/lib.rs). -/
structure ToolDefinition where
  name : String
  description : String
  parameters : Json

/-- Serde serialization of ToolDefinition, fields in declaration order. -/
def toolDefinitionJson (t : ToolDefinition) : Json :=
  .obj [("name", .str t.name), ("description", .str t.description),
        ("parameters", t.parameters)]

/-- ToolFunction (src/tools/mod.rs): the executor closure stored in the
registry; the async result is modelled as Except over the formatted
error message. -/
abbrev ToolFunction := Option Json → AuthenticatedUser → Except String Json

/-- Application state (src/lib.rs): the name-keyed dispatch table and
the ordered descriptor list. The HashMap registry is modelled as an
association list (key-unique by construction, see initAllTools). -/
structure AppState where
  tool_registry : List (String × ToolFunction)
  tool_definitions : List ToolDefinition

/-- MCP request with method and params (src/lib.rs). -/
inductive McpRequest where
  | discover
  | invoke (tool_name : String) (arguments : Option Json)

/-- The keyword list of is_param_validation_error (src/lib.rs). -/
def validation_keywords : List String :=
  ["parameter", "required", "Unexpected", "Missing", "must be",
   "exceeds maximum", "at least", "characters long", "type"]

/-- is_param_validation_error (src/lib.rs): classify an error message
as parameter-related when it contains any of the keywords. -/
def is_param_validation_error (error_msg : String) : Bool :=
  validation_keywords.any (fun keyword => strContains error_msg keyword)

/-- handle_mcp_request (src/lib.rs): route discover/invoke, look up the
tool, run its executor, and classify failure messages. -/
def handle_mcp_request (state : AppState) (user : AuthenticatedUser)
    (payload : McpRequest) : McpResponse :=
  match payload with
  | .discover =>
    McpResponse.success
      (.obj [("tools", .arr (state.tool_definitions.map toolDefinitionJson))])
  | .invoke tool_name arguments =>
    match alookup tool_name state.tool_registry with
    | some tool_func =>
      match tool_func arguments user with
      | .ok result => McpResponse.success result
      | .error e =>
        if is_param_validation_error e then
          McpResponse.mkError (-32002) ("Invalid parameters: " ++ e) none
        else
          McpResponse.mkError (-32003) ("Tool execution error: " ++ e) none
    | none =>
      let available_tools := state.tool_definitions.map (fun t => t.name)
      McpResponse.mkError (-32601) ("Tool '" ++ tool_name ++ "' not found")
        (some (.obj [("available_tools", .arr (available_tools.map Json.str))]))

/-- The complete /mcp pipeline: the auth middleware runs strictly before
dispatch; dispatch outcomes travel in a 200 body. -/
def handleMcpHttp (state : AppState) (credentials : CredentialsStore)
    (authHeader : Option String) (user_payload : McpRequest) : HttpResponse :=
  authMiddlewareCall credentials authHeader
    (fun user =>
      { status := 200
        body := serializeMcpResponse (handle_mcp_request state user user_payload) })

/-- A tool capability (the McpTool trait object of src/tools/mod.rs):
name, description, parameter schema and executor. -/
structure McpTool where
  name : String
  description : String
  parameters_schema : Json
  execute : ToolFunction

/-- register_tool_boxed (src/tools/mod.rs): push the descriptor and bind
the name to the executor. -/
def register_tool_boxed (tool : McpTool)
    (func_reg : List (String × ToolFunction)) (def_vec : List ToolDefinition) :
    List (String × ToolFunction) × List ToolDefinition :=
  (func_reg ++ [(tool.name, tool.execute)],
   def_vec ++ [{ name := tool.name, description := tool.description,
                 parameters := tool.parameters_schema }])

/-- The registration loop of initialize_all_tools (src/tools/mod.rs),
with the seen-name set carried explicitly; the duplicate-name panic is
modelled as Except.error of the panic message. -/
def initAllToolsAux (seen : List String) (entries : List McpTool)
    (func_reg : List (String × ToolFunction)) (def_vec : List ToolDefinition) :
    Except String (List (String × ToolFunction) × List ToolDefinition) :=
  match entries with
  | [] => .ok (func_reg, def_vec)
  | tool :: rest =>
    if tool.name ∈ seen then
      .error ("Duplicate tool name detected: '" ++ tool.name ++
        "'. Each tool must have a unique name.")
    else
      match register_tool_boxed tool func_reg def_vec with
      | (fr, dv) => initAllToolsAux (tool.name :: seen) rest fr dv

/-- initialize_all_tools (src/tools/mod.rs), over an explicit list of
collected tool entries; a duplicate name aborts startup. -/
def initAllTools (entries : List McpTool) :
    Except String (List (String × ToolFunction) × List ToolDefinition) :=
  initAllToolsAux [] entries [] []

/-- The parameter schema of GetTimeTool (src/tools/get_time.rs). -/
def getTimeSchema : Json :=
  .obj [("type", .str "object"), ("properties", .obj []),
        ("additionalProperties", .bool false), ("required", .arr [])]

/-- GetTimeTool::execute (src/tools/get_time.rs): validate the arguments
against the tool's own schema, then produce the current time. The clock
read (Utc::now().to_rfc3339()) is ambient input, passed as `now`. -/
def getTimeExecute (now : String) (args : Option Json)
    (_user : AuthenticatedUser) : Except String Json :=
  match validate_tool_args getTimeSchema args with
  | .ok _ => .ok (.obj [("current_time", .str now)])
  | .error e => .error e

/-- The GetTimeTool capability: the only tool the inventory of this
program collects. -/
def getTimeTool (now : String) : McpTool :=
  { name := "get_current_time"
    description := "Returns the current server time as an ISO 8601 string."
    parameters_schema := getTimeSchema
    execute := getTimeExecute now }

/-- The AppState create_app builds (src/lib.rs) from the program's tool
inventory, which contains exactly GetTimeTool. Registration cannot fail
here (a single entry has no duplicate), so the error arm is dead. -/
def createAppState (now : String) : AppState :=
  match initAllTools [getTimeTool now] with
  | .ok (fr, dv) => { tool_registry := fr, tool_definitions := dv }
  | .error _ => { tool_registry := [], tool_definitions := [] }

/-! Theorems. -/

/-- strContains decides substring containment at the character level. -/
theorem strContains_iff (s pat : String) :
    strContains s pat = true ↔ pat.data <:+: s.data := by
  simp only [strContains, List.any_eq_true]
  constructor
  · rintro ⟨t, ht, hp⟩
    rw [List.mem_tails] at ht
    rw [List.isPrefixOf_iff_prefix] at hp
    exact List.infix_iff_prefix_suffix.mpr ⟨t, hp, ht⟩
  · intro h
    obtain ⟨t, hp, ht⟩ := List.infix_iff_prefix_suffix.mp h
    exact ⟨t, (List.mem_tails t s.data).mpr ht, List.isPrefixOf_iff_prefix.mpr hp⟩

/-- is_param_validation_error holds exactly when some keyword occurs as
a substring of the message. -/
theorem is_param_validation_error_iff (m : String) :
    is_param_validation_error m = true ↔
      ∃ kw ∈ validation_keywords, kw.data <:+: m.data := by
  simp only [is_param_validation_error, List.any_eq_true, strContains_iff]

/-- Claim C6: with absent arguments, validation fails with the
comma-joined required list when `required` is non-empty, and succeeds
outright when `required` is empty. -/
theorem absent_args_required_behavior (schema : Json) :
    (getRequired schema ≠ [] →
      validate_tool_args schema none =
        .error ("Missing required arguments: " ++
          String.intercalate ", " (getRequired schema))) ∧
    (getRequired schema = [] → validate_tool_args schema none = .ok ()) := by
  constructor
  · intro h
    have he : (getRequired schema).isEmpty = false := by
      cases hr : getRequired schema with
      | nil => exact absurd hr h
      | cons a l => rfl
    simp [validate_tool_args, he]
  · intro h
    simp [validate_tool_args, h]

/-- Witness for C6 at a schema requiring fields a and b with arguments
absent. -/
theorem absent_args_required_witness :
    validate_tool_args (.obj [("required", .arr [.str "a", .str "b"])]) none =
      .error "Missing required arguments: a, b" := by
  have h :=
    (absent_args_required_behavior (.obj [("required", .arr [.str "a", .str "b"])])).1
      (by simp [getRequired, Json.get?, alookup, Json.asArr?, Json.asStr?])
  exact h.trans (by rfl)

/-- Claim C7 (amended): for a schema carrying only a `pattern` keyword
and a string value, patterns that start with a caret and end with a star
are checked as a plain prefix test against the pattern text with every
leading caret and every trailing star removed; any other pattern imposes
no constraint. -/
theorem pattern_is_literal_markers_test (name pat s : String) :
    (strStartsChar pat '^' = true → strEndsChar pat '*' = true →
      validate_value name (.str s) (.obj [("pattern", .str pat)]) =
        (if strIsPrefix (trimEndMatches '*' (trimStartMatches '^' pat)) s then
          .ok ()
         else
          .error ("Parameter '" ++ name ++ "' does not match required pattern"))) ∧
    (¬ (strStartsChar pat '^' = true ∧ strEndsChar pat '*' = true) →
      validate_value name (.str s) (.obj [("pattern", .str pat)]) = .ok ()) := by
  constructor
  · intro h1 h2
    simp [validate_value, validate_value_str, validate_value_maxlen,
      validate_value_pattern, validate_value_numeric, validate_value_items,
      Json.get?, alookup, Json.asStr?, Json.asF64?, Json.asArr?, Json.asU64?,
      h1, h2]
  · intro h
    simp [validate_value, validate_value_str, validate_value_maxlen,
      validate_value_pattern, validate_value_numeric, validate_value_items,
      Json.get?, alookup, Json.asStr?, Json.asF64?, Json.asArr?, Json.asU64?, h]

/-- Counterexample to C7 as stated: the pattern "^^a*" has the literal
form of a caret, then an enclosed prefix "^a", then a star; the value
"^a" starts with that enclosed prefix, yet the check fails, because the
code strips every leading caret and every trailing star, testing the
prefix "a" instead. -/
theorem pattern_enclosed_prefix_counterexample :
    strIsPrefix "^a" "^a" = true ∧
    validate_value "p" (.str "^a") (.obj [("pattern", .str "^^a*")]) =
      .error "Parameter 'p' does not match required pattern" :=
  ⟨rfl, rfl⟩

/-- Witness for the amended C7 at pattern "^ab*" and value "abc". -/
theorem pattern_check_witness :
    validate_value "p" (.str "abc") (.obj [("pattern", .str "^ab*")]) = .ok () := by
  have h := (pattern_is_literal_markers_test "p" "^ab*" "abc").1 rfl rfl
  exact h.trans (by rfl)

/-- Claim C8: every envelope the dispatcher produces has jsonrpc "2.0"
and exactly one of result and error present; the absent one is omitted
from the serialized object altogether. -/
theorem envelope_result_error_exclusive (state : AppState) (user : AuthenticatedUser)
    (payload : McpRequest) :
    (handle_mcp_request state user payload).jsonrpc = "2.0" ∧
    (((handle_mcp_request state user payload).result.isSome = true ∧
      (handle_mcp_request state user payload).error = none ∧
      Json.objKeys (serializeMcpResponse (handle_mcp_request state user payload)) =
        ["result", "jsonrpc"]) ∨
     ((handle_mcp_request state user payload).result = none ∧
      (handle_mcp_request state user payload).error.isSome = true ∧
      Json.objKeys (serializeMcpResponse (handle_mcp_request state user payload)) =
        ["error", "jsonrpc"])) := by
  cases payload with
  | discover =>
    exact ⟨rfl, Or.inl ⟨rfl, rfl, rfl⟩⟩
  | invoke tool_name arguments =>
    cases hl : alookup tool_name state.tool_registry with
    | none =>
      refine ⟨?_, Or.inr ⟨?_, ?_, ?_⟩⟩ <;>
        simp [handle_mcp_request, hl, McpResponse.mkError, serializeMcpResponse,
          errorDetailsJson, Json.objKeys]
    | some f =>
      cases hr : f arguments user with
      | ok v =>
        refine ⟨?_, Or.inl ⟨?_, ?_, ?_⟩⟩ <;>
          simp [handle_mcp_request, hl, hr, McpResponse.success,
            serializeMcpResponse, Json.objKeys]
      | error e =>
        by_cases hc : is_param_validation_error e <;>
          refine ⟨?_, Or.inr ⟨?_, ?_, ?_⟩⟩ <;>
            simp [handle_mcp_request, hl, hr, hc, McpResponse.mkError,
              serializeMcpResponse, errorDetailsJson, Json.objKeys]

/-- The program's registry and descriptor list, as built by create_app
from the single collected tool. -/
theorem createAppState_eq (now : String) :
    createAppState now =
      { tool_registry := [("get_current_time", getTimeExecute now)]
        tool_definitions :=
          [{ name := "get_current_time"
             description := "Returns the current server time as an ISO 8601 string."
             parameters := getTimeSchema }] } := rfl

/-- Claim C1: on a registry hit, the supplied arguments are validated
against the tool's parameter schema before the tool's work runs: a
validation failure is classified and wrapped as an error response and
the tool's result is never produced (the response does not depend on the
clock reading `now`); only on validation success does the executor's
work produce the result. The only registered tool is get_current_time,
whose executor performs this validation first. -/
theorem invoke_validates_before_executor (now : String) (user : AuthenticatedUser)
    (tool_name : String) (args : Option Json)
    (hreg : (alookup tool_name (createAppState now).tool_registry).isSome = true) :
    tool_name = "get_current_time" ∧
    (∀ m, validate_tool_args getTimeSchema args = .error m →
      handle_mcp_request (createAppState now) user (.invoke tool_name args) =
        (if is_param_validation_error m then
          McpResponse.mkError (-32002) ("Invalid parameters: " ++ m) none
         else
          McpResponse.mkError (-32003) ("Tool execution error: " ++ m) none)) ∧
    (validate_tool_args getTimeSchema args = .ok () →
      handle_mcp_request (createAppState now) user (.invoke tool_name args) =
        McpResponse.success (.obj [("current_time", .str now)])) := by
  rw [createAppState_eq] at hreg
  have hname : tool_name = "get_current_time" := by
    by_contra hne
    simp [alookup, Ne.symm hne] at hreg
  subst hname
  refine ⟨rfl, ?_, ?_⟩
  · intro m hval
    simp [handle_mcp_request, createAppState_eq, alookup, getTimeTool,
      getTimeExecute, hval]
  · intro hval
    simp [handle_mcp_request, createAppState_eq, alookup, getTimeTool,
      getTimeExecute, hval]

/-- Witness for C1: invalid arguments for get_current_time are rejected
as invalid parameters without producing a time result. -/
theorem invoke_validation_failure_witness :
    handle_mcp_request (createAppState "2024-01-01T00:00:00Z")
      { creds := { username := "alice", api_key := "k1", external_keys := [] } }
      (.invoke "get_current_time" (some (.obj [("x", .null)]))) =
      McpResponse.mkError (-32002) "Invalid parameters: Unexpected parameter: 'x'" none := by
  have h :=
    (invoke_validates_before_executor "2024-01-01T00:00:00Z"
      { creds := { username := "alice", api_key := "k1", external_keys := [] } }
      "get_current_time" (some (.obj [("x", .null)])) (by rfl)).2.1
      "Unexpected parameter: 'x'" (by rfl)
  exact h.trans (by rfl)

/-- Claim C2: a failure message from validation or execution is wrapped
as invalid parameters (-32002) exactly when it contains one of the nine
keywords as a substring, and as a tool execution error (-32003)
otherwise. -/
theorem error_classification_by_keywords (state : AppState) (user : AuthenticatedUser)
    (tool_name : String) (args : Option Json) (f : ToolFunction) (m : String)
    (hf : alookup tool_name state.tool_registry = some f)
    (hrun : f args user = .error m) :
    ((∃ kw ∈ validation_keywords, kw.data <:+: m.data) →
      handle_mcp_request state user (.invoke tool_name args) =
        McpResponse.mkError (-32002) ("Invalid parameters: " ++ m) none) ∧
    ((∀ kw ∈ validation_keywords, ¬ kw.data <:+: m.data) →
      handle_mcp_request state user (.invoke tool_name args) =
        McpResponse.mkError (-32003) ("Tool execution error: " ++ m) none) := by
  constructor
  · intro hkw
    have hcls : is_param_validation_error m = true :=
      (is_param_validation_error_iff m).mpr hkw
    simp [handle_mcp_request, hf, hrun, hcls]
  · intro hkw
    have hcls : is_param_validation_error m = false := by
      rw [Bool.eq_false_iff]
      intro hc
      obtain ⟨kw, hmem, hinf⟩ := (is_param_validation_error_iff m).mp hc
      exact hkw kw hmem hinf
    simp [handle_mcp_request, hf, hrun, hcls]

/-- Witness for C2: the message "Arguments must be an object" contains
the keyword "must be" and is classified as invalid parameters. -/
theorem error_classification_witness :
    handle_mcp_request (createAppState "T")
      { creds := { username := "alice", api_key := "k1", external_keys := [] } }
      (.invoke "get_current_time" (some (.str "5"))) =
      McpResponse.mkError (-32002) "Invalid parameters: Arguments must be an object"
        none := by
  have h :=
    (error_classification_by_keywords (createAppState "T")
      { creds := { username := "alice", api_key := "k1", external_keys := [] } }
      "get_current_time" (some (.str "5")) (getTimeExecute "T")
      "Arguments must be an object" (by rfl) (by rfl)).1
      ⟨"must be", by simp [validation_keywords], by
        rw [← strContains_iff]
        rfl⟩
  exact h.trans (by rfl)

/-- Claim C3: an invoke whose tool name misses the registry yields the
-32601 not-found error carrying the registered tool names, in
registration order, under data.available_tools. -/
theorem unknown_tool_not_found (state : AppState) (user : AuthenticatedUser)
    (tool_name : String) (args : Option Json)
    (h : alookup tool_name state.tool_registry = none) :
    handle_mcp_request state user (.invoke tool_name args) =
      McpResponse.mkError (-32601) ("Tool '" ++ tool_name ++ "' not found")
        (some (.obj [("available_tools",
          .arr ((state.tool_definitions.map (fun t => t.name)).map Json.str))])) := by
  simp [handle_mcp_request, h]

/-- Witness for C3: invoking the unregistered name "bogus" against the
program's registry lists get_current_time as available. -/
theorem unknown_tool_witness :
    handle_mcp_request (createAppState "T")
      { creds := { username := "alice", api_key := "k1", external_keys := [] } }
      (.invoke "bogus" none) =
      McpResponse.mkError (-32601) "Tool 'bogus' not found"
        (some (.obj [("available_tools", .arr [.str "get_current_time"])])) := by
  have h :=
    unknown_tool_not_found (createAppState "T")
      { creds := { username := "alice", api_key := "k1", external_keys := [] } }
      "bogus" none (by rfl)
  exact h.trans (by rfl)

/-- Claim C4: authentication has exactly four outcomes, fixed by the
header and the store: a missing header, a header without the literal
"Bearer " lead, a token outside the store, or success with the store's
credentials; each failure short-circuits before dispatch (the inner
handler is never consulted) as HTTP 401 with code -32001 and the fixed
message. -/
theorem auth_gate_outcomes (store : CredentialsStore) (authHeader : Option String)
    (inner : AuthenticatedUser → HttpResponse) :
    (authHeader = none →
      authMiddlewareCall store authHeader inner =
        { status := 401
          body := .obj [("jsonrpc", .str "2.0"),
            ("error", .obj [("code", .int (-32001)),
              ("message", .str "Missing Authorization header")])] }) ∧
    (∀ s, authHeader = some s → strIsPrefix "Bearer " s = false →
      authMiddlewareCall store authHeader inner =
        { status := 401
          body := .obj [("jsonrpc", .str "2.0"),
            ("error", .obj [("code", .int (-32001)),
              ("message",
               .str "Invalid Authorization header format. Expected: Bearer <token>")])] }) ∧
    (∀ s, authHeader = some s → strIsPrefix "Bearer " s = true →
      alookup (strDropChars 7 s) store = none →
      authMiddlewareCall store authHeader inner =
        { status := 401
          body := .obj [("jsonrpc", .str "2.0"),
            ("error", .obj [("code", .int (-32001)),
              ("message", .str "Invalid or expired API key")])] }) ∧
    (∀ s c, authHeader = some s → strIsPrefix "Bearer " s = true →
      alookup (strDropChars 7 s) store = some c →
      authMiddlewareCall store authHeader inner = inner { creds := c }) := by
  have hlen : "Bearer ".data.length = 7 := rfl
  refine ⟨?_, ?_, ?_, ?_⟩
  · intro h
    subst h
    rfl
  · intro s hs hpre
    subst hs
    simp [authMiddlewareCall, authenticate, stripPrefixOpt, hpre,
      AuthError.into_response, authErrorBody, errorDetailsJson, AuthError.message]
  · intro s hs hpre hmiss
    subst hs
    simp [authMiddlewareCall, authenticate, stripPrefixOpt, hpre, hlen,
      validate_api_key, hmiss, AuthError.into_response, authErrorBody,
      errorDetailsJson, AuthError.message]
  · intro s c hs hpre hhit
    subst hs
    simp [authMiddlewareCall, authenticate, stripPrefixOpt, hpre, hlen,
      validate_api_key, hhit]

/-- Witness for C4 on the success branch: a valid Bearer token reaches
the inner handler with the stored credentials. -/
theorem auth_gate_witness :
    authMiddlewareCall [("k1", { username := "alice", api_key := "k1", external_keys := [] })]
      (some "Bearer k1")
      (fun u => { status := 200, body := .str u.creds.username }) =
      { status := 200, body := .str "alice" } := by
  have h :=
    (auth_gate_outcomes
      [("k1", { username := "alice", api_key := "k1", external_keys := [] })]
      (some "Bearer k1")
      (fun u => { status := 200, body := .str u.creds.username })).2.2.2
      "Bearer k1" { username := "alice", api_key := "k1", external_keys := [] }
      rfl (by rfl) (by rfl)
  exact h.trans (by rfl)

/-- When some argument key is absent from `properties`, the
additionalProperties scan fails naming such a key (the first in
iteration order). -/
theorem checkUnexpected_fails (props : List (String × Json))
    (args_obj : List (String × Json))
    (h : ∃ k ∈ args_obj.map Prod.fst, alookup k props = none) :
    ∃ k, k ∈ args_obj.map Prod.fst ∧ alookup k props = none ∧
      checkUnexpected props args_obj =
        .error ("Unexpected parameter: '" ++ k ++ "'") := by
  induction args_obj with
  | nil => simp at h
  | cons kv rest ih =>
    obtain ⟨k0, v0⟩ := kv
    by_cases h0 : (alookup k0 props).isSome = true
    · have hrest : ∃ k ∈ rest.map Prod.fst, alookup k props = none := by
        obtain ⟨k, hk, hnone⟩ := h
        simp only [List.map_cons, List.mem_cons] at hk
        rcases hk with heq | hmem
        · subst heq
          rw [hnone] at h0
          simp at h0
        · exact ⟨k, hmem, hnone⟩
      obtain ⟨k, hk, hnone, heq⟩ := ih hrest
      exact ⟨k, by simp [hk], hnone, by simp [checkUnexpected, h0, heq]⟩
    · have hnone : alookup k0 props = none := by
        cases hl : alookup k0 props with
        | none => rfl
        | some v => rw [hl] at h0; simp at h0
      exact ⟨k0, by simp, hnone, by simp [checkUnexpected, hnone]⟩

/-- When every argument key is found in `properties`, the
additionalProperties scan passes. -/
theorem checkUnexpected_ok (props : List (String × Json))
    (args_obj : List (String × Json))
    (h : ∀ k ∈ args_obj.map Prod.fst, (alookup k props).isSome = true) :
    checkUnexpected props args_obj = .ok () := by
  induction args_obj with
  | nil => rfl
  | cons kv rest ih =>
    obtain ⟨k0, v0⟩ := kv
    have h0 := h k0 (by simp)
    simp only [checkUnexpected, h0, if_true]
    exact ih (fun k hk => h k (by simp [hk]))

/-- The required scan fails with the first required name, in declared
order, absent from the arguments. -/
theorem checkRequired_first_missing (args_obj : List (String × Json))
    (required : List String) (r : String)
    (h : required.find? (fun q => (alookup q args_obj).isNone) = some r) :
    checkRequired args_obj required =
      .error ("Missing required parameter: '" ++ r ++ "'") := by
  induction required with
  | nil => simp at h
  | cons q rest ih =>
    by_cases hq : (alookup q args_obj).isNone = true
    · rw [List.find?_cons] at h
      simp only [hq] at h
      have hr : q = r := by simpa using h
      subst hr
      have hs : (alookup q args_obj).isSome = false := by
        rw [Option.isNone_iff_eq_none] at hq
        simp [hq]
      simp [checkRequired, hs]
    · have hqf : (alookup q args_obj).isNone = false := by
        rwa [Bool.not_eq_true] at hq
      rw [List.find?_cons] at h
      simp only [hqf] at h
      have hs : (alookup q args_obj).isSome = true := by
        cases hl : alookup q args_obj with
        | none => rw [hl] at hqf; simp at hqf
        | some v => rfl
      simp only [checkRequired, hs, if_true]
      exact ih h

/-- Claim C5: with additionalProperties=false, an argument key outside
`properties` fails the unexpected-parameter check, which runs before the
required-presence check; when the unexpected check passes, the first
missing required name, in the schema's declared order, is reported. -/
theorem unexpected_precedes_missing (schema : Json) (args_obj : List (String × Json)) :
    (∀ props, getProperties schema = some props →
      getAdditionalProperties schema = false →
      (∃ k ∈ args_obj.map Prod.fst, alookup k props = none) →
      ∃ k, k ∈ args_obj.map Prod.fst ∧ alookup k props = none ∧
        validate_tool_args schema (some (.obj args_obj)) =
          .error ("Unexpected parameter: '" ++ k ++ "'")) ∧
    ((getAdditionalProperties schema = true ∨
      (∀ k ∈ args_obj.map Prod.fst, ∀ props, getProperties schema = some props →
        (alookup k props).isSome = true)) →
      ∀ r, (getRequired schema).find? (fun q => (alookup q args_obj).isNone) = some r →
        validate_tool_args schema (some (.obj args_obj)) =
          .error ("Missing required parameter: '" ++ r ++ "'")) := by
  constructor
  · intro props hprops hadd hex
    obtain ⟨k, hk, hnone, herr⟩ := checkUnexpected_fails props args_obj hex
    refine ⟨k, hk, hnone, ?_⟩
    simp [validate_tool_args, hprops, hadd, herr, Json.asObj?]
  · intro hok r hfind
    have hreq := checkRequired_first_missing args_obj (getRequired schema) r hfind
    have hcheck :
        (if getAdditionalProperties schema = false then
          (match getProperties schema with
           | some props => checkUnexpected props args_obj
           | none => Except.ok ())
         else Except.ok ()) = Except.ok () := by
      rcases hok with hadd | hall
      · simp [hadd]
      · cases hp : getProperties schema with
        | none => simp
        | some props =>
          simp [hp, checkUnexpected_ok props args_obj (fun k hk => hall k hk props hp)]
    simp [validate_tool_args, Json.asObj?, hreq]
    rw [hcheck]

/-- Witness for C5: arguments with the unexpected key b and the missing
required field a report the unexpected parameter. -/
theorem unexpected_precedes_missing_witness :
    validate_tool_args
      (.obj [("properties", .obj [("a", .obj [])]),
             ("required", .arr [.str "a"]),
             ("additionalProperties", .bool false)])
      (some (.obj [("b", .null)])) =
      .error "Unexpected parameter: 'b'" := by
  obtain ⟨k, hk, hnone, herr⟩ :=
    (unexpected_precedes_missing
      (.obj [("properties", .obj [("a", .obj [])]),
             ("required", .arr [.str "a"]),
             ("additionalProperties", .bool false)])
      [("b", Json.null)]).1 [("a", .obj [])] rfl rfl ⟨"b", by simp, rfl⟩
  have hkb : k = "b" := by simpa using hk
  subst hkb
  exact herr.trans (by rfl)

/-- With pairwise-distinct pending names that also avoid the seen set,
the registration loop completes. -/
theorem initAllToolsAux_ok (entries : List McpTool) :
    ∀ (seen : List String) (func_reg : List (String × ToolFunction))
      (def_vec : List ToolDefinition),
      (seen ++ entries.map McpTool.name).Nodup →
      ∃ p, initAllToolsAux seen entries func_reg def_vec = .ok p := by
  induction entries with
  | nil => exact fun seen fr dv _ => ⟨(fr, dv), rfl⟩
  | cons t rest ih =>
    intro seen fr dv hnd
    rw [List.map_cons] at hnd
    have hmem : t.name ∉ seen := by
      have hdisj := List.disjoint_of_nodup_append hnd
      intro hc
      exact hdisj hc (by simp)
    have hperm : List.Perm (seen ++ t.name :: rest.map McpTool.name)
        (t.name :: (seen ++ rest.map McpTool.name)) := List.perm_middle
    have hnd' : ((t.name :: seen) ++ rest.map McpTool.name).Nodup := by
      have := hperm.nodup_iff.mp hnd
      simpa using this
    obtain ⟨p, hp⟩ := ih (t.name :: seen) (fr ++ [(t.name, t.execute)])
      (dv ++ [ToolDefinition.mk t.name t.description t.parameters_schema]) hnd'
    refine ⟨p, ?_⟩
    simp [initAllToolsAux, hmem, register_tool_boxed, hp]

/-- With a duplicate among the seen and pending names, the registration
loop aborts naming a name that occurs at least twice. -/
theorem initAllToolsAux_dup (entries : List McpTool) :
    ∀ (seen : List String) (func_reg : List (String × ToolFunction))
      (def_vec : List ToolDefinition),
      seen.Nodup → ¬ (seen ++ entries.map McpTool.name).Nodup →
      ∃ n, 2 ≤ (seen ++ entries.map McpTool.name).count n ∧
        initAllToolsAux seen entries func_reg def_vec =
          .error ("Duplicate tool name detected: '" ++ n ++
            "'. Each tool must have a unique name.") := by
  induction entries with
  | nil =>
    intro seen fr dv hseen hnd
    exact absurd hseen (by simpa using hnd)
  | cons t rest ih =>
    intro seen fr dv hseen hnd
    rw [List.map_cons] at hnd
    by_cases hmem : t.name ∈ seen
    · refine ⟨t.name, ?_, by simp [initAllToolsAux, hmem]⟩
      have h1 : 0 < seen.count t.name := List.count_pos_iff.mpr hmem
      rw [List.map_cons]
      rw [List.count_append]
      simp only [List.count_cons_self]
      omega
    · have hseen' : (t.name :: seen).Nodup := List.nodup_cons.mpr ⟨hmem, hseen⟩
      have hperm : List.Perm (seen ++ t.name :: rest.map McpTool.name)
          (t.name :: (seen ++ rest.map McpTool.name)) := List.perm_middle
      have hnd' : ¬ ((t.name :: seen) ++ rest.map McpTool.name).Nodup := by
        intro hc
        apply hnd
        refine hperm.nodup_iff.mpr ?_
        simpa using hc
      obtain ⟨n, hc, he⟩ := ih (t.name :: seen) (fr ++ [(t.name, t.execute)])
        (dv ++ [ToolDefinition.mk t.name t.description t.parameters_schema]) hseen' hnd'
      refine ⟨n, ?_, ?_⟩
      · rw [List.map_cons, hperm.count_eq]
        simpa using hc
      · simp [initAllToolsAux, hmem, register_tool_boxed, he]

/-- Claim C9: building the registry succeeds for pairwise-distinct tool
names and aborts (the modelled panic) for any collection with a repeated
name, with the abort message naming a name that occurs twice. -/
theorem duplicate_tool_name_fatal (entries : List McpTool) :
    ((entries.map McpTool.name).Nodup → ∃ p, initAllTools entries = .ok p) ∧
    (¬ (entries.map McpTool.name).Nodup →
      ∃ n, 2 ≤ (entries.map McpTool.name).count n ∧
        initAllTools entries =
          .error ("Duplicate tool name detected: '" ++ n ++
            "'. Each tool must have a unique name.")) := by
  constructor
  · intro hnd
    exact initAllToolsAux_ok entries [] [] [] (by simpa using hnd)
  · intro hnd
    obtain ⟨n, hc, he⟩ := initAllToolsAux_dup entries [] [] []
      List.nodup_nil (by simpa using hnd)
    exact ⟨n, by simpa using hc, he⟩

/-- Witness for C9: two tools both named dup abort the build with the
duplicate-name message. -/
theorem duplicate_tool_name_witness :
    initAllTools
      [{ name := "dup", description := "d1", parameters_schema := .obj [],
         execute := fun _ _ => .ok .null },
       { name := "dup", description := "d2", parameters_schema := .obj [],
         execute := fun _ _ => .ok .null }] =
      .error "Duplicate tool name detected: 'dup'. Each tool must have a unique name." := by
  obtain ⟨n, hc, he⟩ :=
    (duplicate_tool_name_fatal
      [{ name := "dup", description := "d1", parameters_schema := .obj [],
         execute := fun _ _ => .ok .null },
       { name := "dup", description := "d2", parameters_schema := .obj [],
         execute := fun _ _ => .ok .null }]).2 (by simp)
  have hc' : 0 < (["dup", "dup"] : List String).count n := by
    have : 2 ≤ (["dup", "dup"] : List String).count n := hc
    omega
  have hn : n = "dup" := by
    have hmem := List.count_pos_iff.mp hc'
    simpa using hmem
  subst hn
  exact he.trans (by rfl)

/-- Structural description of a successful registration loop: the
registry and descriptor list extend the accumulators with one entry per
tool, all pending names avoid the seen set, and the names are
pairwise distinct. -/
theorem initAllToolsAux_ok_spec (entries : List McpTool) :
    ∀ (seen : List String) (func_reg : List (String × ToolFunction))
      (def_vec : List ToolDefinition) reg defs,
      initAllToolsAux seen entries func_reg def_vec = .ok (reg, defs) →
      reg = func_reg ++ entries.map (fun t => (t.name, t.execute)) ∧
      defs = def_vec ++ entries.map
        (fun t => ToolDefinition.mk t.name t.description t.parameters_schema) ∧
      (∀ t ∈ entries, t.name ∉ seen) ∧ (entries.map McpTool.name).Nodup := by
  induction entries with
  | nil =>
    intro seen fr dv reg defs h
    simp only [initAllToolsAux, Except.ok.injEq, Prod.mk.injEq] at h
    obtain ⟨h1, h2⟩ := h
    refine ⟨by simp [h1.symm], by simp [h2.symm], by simp, by simp⟩
  | cons t rest ih =>
    intro seen fr dv reg defs h
    by_cases hmem : t.name ∈ seen
    · simp [initAllToolsAux, hmem] at h
    · simp only [initAllToolsAux, if_neg hmem, register_tool_boxed] at h
      obtain ⟨h1, h2, h3, h4⟩ := ih (t.name :: seen)
        (fr ++ [(t.name, t.execute)])
        (dv ++ [ToolDefinition.mk t.name t.description t.parameters_schema]) reg defs h
      refine ⟨by rw [h1]; simp, by rw [h2]; simp, ?_, ?_⟩
      · intro t' ht'
        rcases List.mem_cons.mp ht' with heq | hmem'
        · subst heq; exact hmem
        · have hnot := h3 t' hmem'
          intro hc
          exact hnot (by simp [hc])
      · rw [List.map_cons, List.nodup_cons]
        refine ⟨?_, h4⟩
        intro hc
        obtain ⟨t', ht', hname⟩ := List.mem_map.mp hc
        exact h3 t' ht' (by simp [hname])

/-- In a registry whose names are pairwise distinct, each tool's name
looks up to that tool's executor. -/
theorem alookup_map_execute (entries : List McpTool)
    (hnd : (entries.map McpTool.name).Nodup) :
    ∀ t ∈ entries,
      alookup t.name (entries.map (fun t => (t.name, t.execute))) =
        some t.execute := by
  induction entries with
  | nil => intro t ht; simp at ht
  | cons t0 rest ih =>
    intro t ht
    rw [List.map_cons, List.nodup_cons] at hnd
    rcases List.mem_cons.mp ht with heq | hmem
    · subst heq
      simp [alookup]
    · have hne : t0.name ≠ t.name := by
        intro hc
        exact hnd.1 (hc ▸ List.mem_map.mpr ⟨t, hmem, rfl⟩)
      rw [List.map_cons]
      simp only [alookup, if_neg hne]
      exact ih hnd.2 t hmem

/-- Claim C10: a successful build keeps the dispatch table and the
descriptor list consistent: equal name sequences (hence equal name
sets), no duplicate names, and every tool's name bound to that tool's
executor alongside its descriptor, so every discoverable name is
invocable. -/
theorem registry_definitions_consistent (entries : List McpTool)
    (reg : List (String × ToolFunction)) (defs : List ToolDefinition)
    (hok : initAllTools entries = .ok (reg, defs)) :
    (defs.map ToolDefinition.name).Nodup ∧
    reg.map Prod.fst = defs.map ToolDefinition.name ∧
    ∀ t ∈ entries, alookup t.name reg = some t.execute ∧
      ToolDefinition.mk t.name t.description t.parameters_schema ∈ defs := by
  obtain ⟨h1, h2, _, h4⟩ := initAllToolsAux_ok_spec entries [] [] [] reg defs hok
  have hreg : reg = entries.map (fun t => (t.name, t.execute)) := by simpa using h1
  have hdefs : defs = entries.map
      (fun t => ToolDefinition.mk t.name t.description t.parameters_schema) := by
    simpa using h2
  subst hreg
  subst hdefs
  refine ⟨?_, ?_, ?_⟩
  · simpa [List.map_map, Function.comp] using h4
  · simp [List.map_map, Function.comp]
  · intro t ht
    exact ⟨alookup_map_execute entries h4 t ht,
      List.mem_map.mpr ⟨t, ht, rfl⟩⟩

/-- Witness for C10 on a two-tool build: the first tool's name is bound
to its executor. -/
theorem registry_consistent_witness :
    alookup "t1"
      ([("t1", fun _ _ => Except.ok (Json.str "one")),
        ("t2", fun _ _ => Except.ok (Json.str "two"))] :
        List (String × ToolFunction)) =
      some (fun _ _ => Except.ok (Json.str "one")) := by
  have h :=
    (registry_definitions_consistent
      [{ name := "t1", description := "d1", parameters_schema := .obj [],
         execute := fun _ _ => Except.ok (Json.str "one") },
       { name := "t2", description := "d2", parameters_schema := .obj [],
         execute := fun _ _ => Except.ok (Json.str "two") }]
      [("t1", fun _ _ => Except.ok (Json.str "one")),
       ("t2", fun _ _ => Except.ok (Json.str "two"))]
      [ToolDefinition.mk "t1" "d1" (.obj []), ToolDefinition.mk "t2" "d2" (.obj [])]
      rfl).2.2
      { name := "t1", description := "d1", parameters_schema := .obj [],
        execute := fun _ _ => Except.ok (Json.str "one") }
      (by simp)
  exact h.1

end McpServer
